import Mathlib

/-!
Shallow embedding of `src/jupyter_deepagents/agent_wrapper.py`.

The wrapper adapts a LangGraph agent to a normalized event stream.  The
dynamic Python values flowing through the normalizer are modelled by the
`PyVal` type; the loosely typed message/update shapes are modelled by
dedicated inductives whose constructors mirror the `isinstance`/`hasattr`
dispatch in the source.  Library calls (`json.loads`, `ast.literal_eval`,
the two regular expressions, `str.strip`) are modelled by executable Lean
functions over the subset of values the wrapper manipulates.
-/

namespace AgentWrapper

/-- Model of the dynamic Python values handled by the wrapper: strings,
integers, booleans, `None`, lists and string-keyed dicts.  (Floats and
other exotic values never matter for the normalizer's observable
behaviour on the claims and are outside the modelled subset.) -/
inductive PyVal where
  | str (s : String)
  | int (n : Int)
  | bool (b : Bool)
  | pynone
  | list (elems : List PyVal)
  | dict (entries : List (String × PyVal))

/-- Python truthiness (`if value:`) on the modelled values. -/
def PyVal.truthy : PyVal → Bool
  | .str s => s != ""
  | .int n => n != 0
  | .bool b => b
  | .pynone => false
  | .list l => !l.isEmpty
  | .dict d => !d.isEmpty

/-- Python `x or y` on modelled values. -/
def pyOr (a b : PyVal) : PyVal := if a.truthy then a else b

/-- The single-quote character, kept out of string literals. -/
def sqc : Char := Char.ofNat 39

/-- The single-quote character as a string. -/
def sq : String := String.mk [sqc]

/-- Opening curly brace character. -/
def lbrace : Char := Char.ofNat 123

/-- Closing curly brace character. -/
def rbrace : Char := Char.ofNat 125

/-- Whitespace stripped by Python `str.strip()` and matched by `\s` in the
wrapper's regular expressions: space, tab, newline, carriage return,
form feed, vertical tab. -/
def isPyWs (c : Char) : Bool :=
  c = ' ' || c = Char.ofNat 9 || c = Char.ofNat 10 || c = Char.ofNat 13 ||
  c = Char.ofNat 12 || c = Char.ofNat 11

/-- Model of Python `str.strip()` (no arguments): drop leading and trailing
whitespace. -/
def pyStrip (s : String) : String :=
  String.mk (((s.data.dropWhile isPyWs).reverse.dropWhile isPyWs).reverse)

mutual

/-- Model of Python `repr` on the modelled values (used through `str` for
containers); strings render between single quotes, `True`/`False`/`None`
use their Python spelling. -/
def pyRepr : PyVal → String
  | .str s => sq ++ s ++ sq
  | .int n => toString n
  | .bool true => "True"
  | .bool false => "False"
  | .pynone => "None"
  | .list l => "[" ++ String.intercalate ", " (pyReprList l) ++ "]"
  | .dict d => String.mk [lbrace] ++ String.intercalate ", " (pyReprEntries d) ++ String.mk [rbrace]

/-- Renders each element of a list with `pyRepr`. -/
def pyReprList : List PyVal → List String
  | [] => []
  | v :: vs => pyRepr v :: pyReprList vs

/-- Renders each dict entry with `pyRepr`. -/
def pyReprEntries : List (String × PyVal) → List String
  | [] => []
  | (k, v) :: es => (sq ++ k ++ sq ++ ": " ++ pyRepr v) :: pyReprEntries es

end

/-- Model of Python `str()` on the modelled values. -/
def pyStr : PyVal → String
  | .str s => s
  | v => pyRepr v

/-- Reads the body of a JSON string after the opening double quote,
decoding the simple backslash escapes (`\u` escapes are outside the
modelled subset). -/
def jStrBody (fuel : Nat) (cs : List Char) : Option (List Char × List Char) :=
  match fuel, cs with
  | 0, _ => none
  | _, [] => none
  | fuel'+1, c :: rest =>
    if c = '"' then some ([], rest)
    else if c = '\\' then
      match rest with
      | [] => none
      | e :: rest2 =>
        let dec :=
          if e = '"' then some '"'
          else if e = '\\' then some '\\'
          else if e = '/' then some '/'
          else if e = 'n' then some (Char.ofNat 10)
          else if e = 't' then some (Char.ofNat 9)
          else if e = 'r' then some (Char.ofNat 13)
          else if e = 'b' then some (Char.ofNat 8)
          else if e = 'f' then some (Char.ofNat 12)
          else none
        match dec with
        | some d =>
          match jStrBody fuel' rest2 with
          | some (body, r) => some (d :: body, r)
          | none => none
        | none => none
    else
      match jStrBody fuel' rest with
      | some (body, r) => some (c :: body, r)
      | none => none

/-- Reads an optionally negated decimal integer (the JSON numbers in the
modelled subset; floats are outside it). -/
def readInt (cs : List Char) : Option (Int × List Char) :=
  let (neg, cs1) :=
    match cs with
    | c :: r => if c = '-' then (true, r) else (false, cs)
    | [] => (false, cs)
  let ds := cs1.takeWhile Char.isDigit
  let rest := cs1.dropWhile Char.isDigit
  if ds.isEmpty then none
  else
    let n : Nat := ds.foldl (fun acc d => acc * 10 + (d.toNat - 48)) 0
    some (if neg then -(n : Int) else (n : Int), rest)

/-- Drops leading whitespace. -/
def skipWs (cs : List Char) : List Char := cs.dropWhile isPyWs

/-- Expects the given literal prefix. -/
def dropLit (lit : List Char) (cs : List Char) : Option (List Char) :=
  match lit, cs with
  | [], _ => some cs
  | _ :: _, [] => none
  | l :: ls, c :: rest => if c = l then dropLit ls rest else none

mutual

/-- Recursive-descent value parser modelling `json.loads` on the modelled
subset (objects, arrays, double-quoted strings, integers, `true`,
`false`, `null`). -/
def jVal : Nat → List Char → Option (PyVal × List Char)
  | 0, _ => none
  | fuel+1, cs =>
    match skipWs cs with
    | [] => none
    | c :: rest =>
      if c = '"' then
        match jStrBody (rest.length + 1) rest with
        | some (body, r) => some (.str (String.mk body), r)
        | none => none
      else if c = lbrace then jObj fuel rest
      else if c = '[' then jArr fuel rest
      else if c = 't' then
        match dropLit ['r', 'u', 'e'] rest with
        | some r => some (.bool true, r)
        | none => none
      else if c = 'f' then
        match dropLit ['a', 'l', 's', 'e'] rest with
        | some r => some (.bool false, r)
        | none => none
      else if c = 'n' then
        match dropLit ['u', 'l', 'l'] rest with
        | some r => some (.pynone, r)
        | none => none
      else
        match readInt (c :: rest) with
        | some (n, r) => some (.int n, r)
        | none => none

/-- Parses the inside of a JSON array, after the opening bracket. -/
def jArr : Nat → List Char → Option (PyVal × List Char)
  | 0, _ => none
  | fuel+1, cs =>
    match skipWs cs with
    | [] => none
    | c :: rest =>
      if c = ']' then some (.list [], rest)
      else
        match jVal fuel cs with
        | some (v, r) => jArrTail fuel [v] r
        | none => none

/-- Parses the remaining elements of a JSON array. -/
def jArrTail : Nat → List PyVal → List Char → Option (PyVal × List Char)
  | 0, _, _ => none
  | fuel+1, acc, cs =>
    match skipWs cs with
    | [] => none
    | c :: rest =>
      if c = ']' then some (.list acc.reverse, rest)
      else if c = ',' then
        match jVal fuel rest with
        | some (v, r) => jArrTail fuel (v :: acc) r
        | none => none
      else none

/-- Parses the inside of a JSON object, after the opening brace. -/
def jObj : Nat → List Char → Option (PyVal × List Char)
  | 0, _ => none
  | fuel+1, cs =>
    match skipWs cs with
    | [] => none
    | c :: rest =>
      if c = rbrace then some (.dict [], rest)
      else if c = '"' then
        match jStrBody (rest.length + 1) rest with
        | some (key, r) =>
          match skipWs r with
          | ':' :: r2 =>
            match jVal fuel r2 with
            | some (v, r3) => jObjTail fuel [(String.mk key, v)] r3
            | none => none
          | _ => none
        | none => none
      else none

/-- Parses the remaining members of a JSON object. -/
def jObjTail : Nat → List (String × PyVal) → List Char → Option (PyVal × List Char)
  | 0, _, _ => none
  | fuel+1, acc, cs =>
    match skipWs cs with
    | [] => none
    | c :: rest =>
      if c = rbrace then some (.dict acc.reverse, rest)
      else if c = ',' then
        match skipWs rest with
        | '"' :: r =>
          match jStrBody (r.length + 1) r with
          | some (key, r1) =>
            match skipWs r1 with
            | ':' :: r2 =>
              match jVal fuel r2 with
              | some (v, r3) => jObjTail fuel ((String.mk key, v) :: acc) r3
              | none => none
            | _ => none
          | none => none
        | _ => none
      else none

end

/-- Model of `json.loads`: parse a whole string as a JSON value, allowing
surrounding whitespace, failing on any leftover input.  `none` models the
call raising. -/
def json_loads (s : String) : Option PyVal :=
  match jVal (2 * s.length + 8) s.data with
  | some (v, rest) => if (skipWs rest).isEmpty then some v else none
  | none => none

/-- Reads a Python string literal body after its opening quote character
(single or double quote; backslash escapes are outside the modelled
subset). -/
def litStrBody (q : Char) (cs : List Char) : Option (List Char × List Char) :=
  let body := cs.takeWhile (fun c => c != q)
  let after := cs.dropWhile (fun c => c != q)
  match after with
  | c :: rest => if c = q then some (body, rest) else none
  | [] => none

mutual

/-- Recursive-descent parser modelling `ast.literal_eval` on the modelled
subset (lists, string-keyed dicts, single- or double-quoted strings,
integers, `True`, `False`, `None`). -/
def litVal : Nat → List Char → Option (PyVal × List Char)
  | 0, _ => none
  | fuel+1, cs =>
    match skipWs cs with
    | [] => none
    | c :: rest =>
      if c = sqc || c = '"' then
        match litStrBody c rest with
        | some (body, r) => some (.str (String.mk body), r)
        | none => none
      else if c = lbrace then litDict fuel rest
      else if c = '[' then litArr fuel rest
      else if c = 'T' then
        match dropLit ['r', 'u', 'e'] rest with
        | some r => some (.bool true, r)
        | none => none
      else if c = 'F' then
        match dropLit ['a', 'l', 's', 'e'] rest with
        | some r => some (.bool false, r)
        | none => none
      else if c = 'N' then
        match dropLit ['o', 'n', 'e'] rest with
        | some r => some (.pynone, r)
        | none => none
      else
        match readInt (c :: rest) with
        | some (n, r) => some (.int n, r)
        | none => none

/-- Parses the inside of a Python list literal, after the opening
bracket. -/
def litArr : Nat → List Char → Option (PyVal × List Char)
  | 0, _ => none
  | fuel+1, cs =>
    match skipWs cs with
    | [] => none
    | c :: rest =>
      if c = ']' then some (.list [], rest)
      else
        match litVal fuel cs with
        | some (v, r) => litArrTail fuel [v] r
        | none => none

/-- Parses the remaining elements of a Python list literal. -/
def litArrTail : Nat → List PyVal → List Char → Option (PyVal × List Char)
  | 0, _, _ => none
  | fuel+1, acc, cs =>
    match skipWs cs with
    | [] => none
    | c :: rest =>
      if c = ']' then some (.list acc.reverse, rest)
      else if c = ',' then
        match litVal fuel rest with
        | some (v, r) => litArrTail fuel (v :: acc) r
        | none => none
      else none

/-- Parses the inside of a Python dict literal, after the opening brace. -/
def litDict : Nat → List Char → Option (PyVal × List Char)
  | 0, _ => none
  | fuel+1, cs =>
    match skipWs cs with
    | [] => none
    | c :: rest =>
      if c = rbrace then some (.dict [], rest)
      else if c = sqc || c = '"' then
        match litStrBody c rest with
        | some (key, r) =>
          match skipWs r with
          | ':' :: r2 =>
            match litVal fuel r2 with
            | some (v, r3) => litDictTail fuel [(String.mk key, v)] r3
            | none => none
          | _ => none
        | none => none
      else none

/-- Parses the remaining entries of a Python dict literal. -/
def litDictTail : Nat → List (String × PyVal) → List Char → Option (PyVal × List Char)
  | 0, _, _ => none
  | fuel+1, acc, cs =>
    match skipWs cs with
    | [] => none
    | c :: rest =>
      if c = rbrace then some (.dict acc.reverse, rest)
      else if c = ',' then
        match skipWs rest with
        | q :: r =>
          if q = sqc || q = '"' then
            match litStrBody q r with
            | some (key, r1) =>
              match skipWs r1 with
              | ':' :: r2 =>
                match litVal fuel r2 with
                | some (v, r3) => litDictTail fuel ((String.mk key, v) :: acc) r3
                | none => none
              | _ => none
            | none => none
          else none
        | [] => none
      else none

end

/-- Model of `ast.literal_eval`: parse a whole string as a Python literal,
allowing surrounding whitespace, failing on any leftover input.  `none`
models the call raising. -/
def ast_literal_eval (s : String) : Option PyVal :=
  match litVal (2 * s.length + 8) s.data with
  | some (v, rest) => if (skipWs rest).isEmpty then some v else none
  | none => none

/-- Index of the last closing square bracket in a character list. -/
def lastCloseIdx (cs : List Char) : Option Nat :=
  ((cs.enum.filter (fun p => p.2 = ']')).getLast?).map (fun p => p.1)

/-- Model of `re.search(r'\[.*\]', s, re.DOTALL)` returning the matched
text: the substring from the first opening bracket that has a closing
bracket after it, up to the last closing bracket of the string. -/
def bracketSearch : List Char → Option (List Char)
  | [] => none
  | c :: rest =>
    if c = '[' then
      match lastCloseIdx rest with
      | some k => some ('[' :: rest.take (k + 1))
      | none => none
    else bracketSearch rest

/-- Expects a single-quoted run of one or more non-quote characters
followed by the closing quote (regex `'[^']+'`). -/
def dropQuoted1 (cs : List Char) : Option (List Char) :=
  match cs with
  | [] => none
  | c :: rest =>
    if c = sqc then
      let body := rest.takeWhile (fun d => d != sqc)
      let after := rest.dropWhile (fun d => d != sqc)
      if body.isEmpty then none
      else
        match after with
        | q :: rest2 => if q = sqc then some rest2 else none
        | [] => none
    else none

/-- Matches the tail of the tool-call-dictionary pattern after the closing
brace of the `'input'` value: `,\s*'name':\s*'[^']+',\s*'type':\s*'tool_use'\}`. -/
def matchTail (cs : List Char) : Option (List Char) :=
  match dropLit [','] cs with
  | none => none
  | some cs1 =>
  match dropLit (sq ++ "name" ++ sq ++ ":").data (skipWs cs1) with
  | none => none
  | some cs2 =>
  match dropQuoted1 (skipWs cs2) with
  | none => none
  | some cs3 =>
  match dropLit [','] cs3 with
  | none => none
  | some cs4 =>
  match dropLit (sq ++ "type" ++ sq ++ ":").data (skipWs cs4) with
  | none => none
  | some cs5 =>
  match dropLit (sq ++ "tool_use" ++ sq).data (skipWs cs5) with
  | none => none
  | some cs6 => dropLit [rbrace] cs6

/-- The lazy `.*?\}` portion before `matchTail`: consume as few characters
as possible until a closing brace whose continuation matches the pattern
tail. -/
def lazyCloseTail : List Char → Option (List Char)
  | [] => none
  | c :: rest =>
    if c = rbrace then
      match matchTail rest with
      | some r => some r
      | none => lazyCloseTail rest
    else lazyCloseTail rest

/-- Attempts to match the full tool-call-dictionary pattern
`\{'id':\s*'[^']+',\s*'input':\s*\{.*?\},\s*'name':\s*'[^']+',\s*'type':\s*'tool_use'\}`
at the head of the input, returning the remainder after the match. -/
def matchToolDict (cs : List Char) : Option (List Char) :=
  match dropLit ([lbrace] ++ (sq ++ "id" ++ sq ++ ":").data) cs with
  | none => none
  | some cs1 =>
  match dropQuoted1 (skipWs cs1) with
  | none => none
  | some cs2 =>
  match dropLit [','] cs2 with
  | none => none
  | some cs3 =>
  match dropLit (sq ++ "input" ++ sq ++ ":").data (skipWs cs3) with
  | none => none
  | some cs4 =>
  match dropLit [lbrace] (skipWs cs4) with
  | none => none
  | some cs5 => lazyCloseTail cs5

/-- Left-to-right scan of `re.sub(pattern, '', s)` for the tool-call
dictionary pattern: each non-overlapping match is deleted. -/
def subToolDicts (fuel : Nat) (cs : List Char) : List Char :=
  match fuel with
  | 0 => cs
  | fuel' + 1 =>
    match cs with
    | [] => []
    | c :: rest =>
      match matchToolDict (c :: rest) with
      | some r => subToolDicts fuel' r
      | none => c :: subToolDicts fuel' rest

/-- Model of
`re.sub(tool_dict_pattern, '', content_str, flags=re.DOTALL)` from the
wrapper. -/
def stripToolDicts (s : String) : String :=
  String.mk (subToolDicts (s.data.length + 1) s.data)

/-! ## Data model of the loosely typed stream values -/

/-- A raw tool call attached to an assistant message: either a mapping
(read with `tc.get(...)`) or an attribute-bearing object (read with
`getattr(tc, ..., default)`).  `none` in a field models an absent
key/attribute. -/
inductive RawToolCall where
  | callDict (idv namev argsv : Option PyVal)
  | callObj (idv namev argsv : Option PyVal)

/-- A normalized tool call `{id, name, args}` as emitted in `tool_calls`
events. -/
structure ToolCallN where
  id : PyVal
  name : PyVal
  args : PyVal

/-- The tool name used for filtering, as the wrapper reads it:
`tc.get("name")` for mappings, `getattr(tc, 'name', None)` for objects. -/
def tcNameOf : RawToolCall → PyVal
  | .callDict _ n _ => n.getD .pynone
  | .callObj _ n _ => n.getD .pynone

/-- Normalizes one raw tool call to `{id, name, args}`.  Mappings default
a missing `args` key to `None` (`tc.get("args")`), objects default a
missing attribute to `{}` (`getattr(tc, 'args', {})`). -/
def normToolCall : RawToolCall → ToolCallN
  | .callDict i n a => ⟨i.getD .pynone, n.getD .pynone, a.getD .pynone⟩
  | .callObj i n a => ⟨i.getD .pynone, n.getD .pynone, a.getD (.dict [])⟩

/-- Python `tool_name in ['think_tool', 'write_todos']` on the extracted
name value. -/
def isSpecialTool : PyVal → Bool
  | .str s => s == "think_tool" || s == "write_todos"
  | _ => false

/-- A message appearing at the end of a node's `messages` list.
`tool` models a `ToolMessage` (its `name` attribute may be absent);
`assistant` models any other message exposing a `content` attribute,
with its attached `tool_calls` (the empty list covers an absent, `None`
or empty attribute, which the wrapper treats identically via
truthiness); `noContent` models a message with neither. -/
inductive Message where
  | tool (toolName : Option String) (content : PyVal)
  | assistant (content : PyVal) (tool_calls : List RawToolCall)
  | noContent

/-- A node's partial state update: either a mapping with a `messages`
list, or anything else (non-mapping, or mapping without `messages`),
which the wrapper skips.  A non-list `messages` value behaves exactly
like a singleton list (`messages[-1] if isinstance(messages, list) else
messages`) and is modelled as such. -/
inductive StateData where
  | withMsgs (messages : List Message)
  | noMsgs

/-- A raw action request inside an interrupt payload.  Mapping-shaped and
attribute-shaped requests are read with identical defaults
(`action.get(k)`/`getattr(action, k, ...)`), so one record models both;
`none` fields model absent keys/attributes. -/
structure RawAction where
  tool : Option PyVal
  name : Option PyVal
  tool_call_id : Option PyVal
  args : Option PyVal
  description : Option PyVal

/-- A raw review config: mapping-shaped (`config.get('allowed_decisions')`,
whose absence yields `None`) or attribute-shaped
(`getattr(config, 'allowed_decisions', ...)`, whose absence yields `[]`). -/
inductive RawReview where
  | rdict (allowed : Option PyVal)
  | robj (allowed : Option PyVal)

/-- A normalized action request as placed in the `interrupt` event. -/
structure ActionRequestN where
  tool : PyVal
  tool_call_id : PyVal
  args : PyVal
  description : PyVal

/-- A normalized review config as placed in the `interrupt` event. -/
structure ReviewConfigN where
  allowed_decisions : PyVal

/-- The normalized interrupt payload. -/
structure InterruptData where
  action_requests : List ActionRequestN
  review_configs : List ReviewConfigN

/-- The `action_requests` and `review_configs` data carried by a raw
interrupt payload. -/
structure IntFields where
  action_requests : List RawAction
  review_configs : List RawReview

/-- The raw shapes of the `__interrupt__` value distinguished by the
wrapper: a 1-tuple holding an object with a `value` mapping; a 1-tuple
holding an object carrying the fields as attributes; a 2-tuple
`(action_requests, review_configs)`; a tuple of any other arity; a
non-tuple object carrying the fields as attributes; and a non-tuple
mapping carrying the fields only as keys (which `getattr` cannot see). -/
inductive RawInterrupt where
  | tuple1Value (f : IntFields)
  | tuple1Attrs (f : IntFields)
  | tuple2 (f : IntFields)
  | tupleOther
  | objAttrs (f : IntFields)
  | mapKeys (f : IntFields)

/-- A streamed update record: an `__interrupt__`-keyed mapping, a regular
mapping from node names to state data, or a non-mapping (skipped). -/
inductive Update where
  | interruptU (raw : RawInterrupt)
  | nodesU (entries : List (String × StateData))
  | nonDict

/-- The normalized events yielded by the wrapper.  `chunk` carries a node
name only on the assistant-message path; the `status` field of the
Python dicts is determined by the constructor and omitted. -/
inductive StreamEvent where
  | chunk (content : PyVal) (node : Option String)
  | tool_calls (calls : List ToolCallN) (node : String)
  | todo_list (todos : List PyVal)
  | interrupt (data : InterruptData)
  | complete
  | error (message : String)

/-! ## Stream Event Normalizer (`AgentWrapper.stream`, lines 415-665) -/

/-- Normalizes one raw action request (lines 464-483): the tool name is
`action.get('tool') or action.get('name')`, the call id defaults to
`call_<index>`, `args` defaults to `{}`, `description` to `None`. -/
def normAction (i : Nat) (a : RawAction) : ActionRequestN :=
  { tool := pyOr (a.tool.getD .pynone) (a.name.getD .pynone)
    tool_call_id := a.tool_call_id.getD (.str ("call_" ++ toString i))
    args := a.args.getD (.dict [])
    description := a.description.getD .pynone }

/-- Normalizes one raw review config (lines 486-490). -/
def normReview (r : RawReview) : ReviewConfigN :=
  match r with
  | .rdict o => ⟨o.getD .pynone⟩
  | .robj o => ⟨o.getD (.list [])⟩

/-- Extracts `action_requests` and `review_configs` from the raw
`__interrupt__` value (lines 435-455).  Tuples of arity other than 1 and
2 degrade to empty lists; a non-tuple value is read with
`getattr(..., [])`, so a mapping carrying the fields only as keys also
degrades to empty lists. -/
def interruptFields : RawInterrupt → IntFields
  | .tuple1Value f => f
  | .tuple1Attrs f => f
  | .tuple2 f => f
  | .tupleOther => ⟨[], []⟩
  | .objAttrs f => f
  | .mapKeys _ => ⟨[], []⟩

/-- Full interrupt normalization (lines 435-490): extract the two lists,
then normalize each action request and review config. -/
def normInterrupt (r : RawInterrupt) : InterruptData :=
  let f := interruptFields r
  ⟨(f.action_requests.enum).map (fun p => normAction p.1 p.2),
   f.review_configs.map normReview⟩

/-- The `reflection` value extracted from a `think_tool` tool message
(lines 514-528): parse string content as JSON and read the `reflection`
field; any exception (parse failure, or `.get` on a non-dict parse
result) falls back to the raw string; dict content is read directly;
other content leaves the reflection as `None`. -/
def thinkReflection (content : PyVal) : PyVal :=
  match content with
  | .str s =>
    match json_loads s with
    | some (.dict d) => (d.lookup "reflection").getD .pynone
    | some _ => .str s
    | none => .str s
  | .dict d => (d.lookup "reflection").getD .pynone
  | _ => .pynone

/-- The `todos` value extracted from a `write_todos` tool message (lines
536-584): for string content, first look for a bracketed array anywhere
in the string and try `ast.literal_eval` then `json.loads` on it;
otherwise parse the whole string as JSON, reading a `todos` field from a
dict (re-parsing it when it is itself a string, keeping the string when
that re-parse fails) or taking a list directly; dict and list content
are read directly; every failure leaves `None`. -/
def todosOf (content : PyVal) : PyVal :=
  match content with
  | .str s =>
    match bracketSearch s.data with
    | some arr =>
      let arrS := String.mk arr
      match ast_literal_eval arrS with
      | some v => v
      | none =>
        match json_loads arrS with
        | some v => v
        | none => .pynone
    | none =>
      match json_loads s with
      | some (.dict d) =>
        match d.lookup "todos" with
        | some (.str ts) =>
          match json_loads ts with
          | some v => v
          | none => .str ts
        | some v => v
        | none => .pynone
      | some (.list l) => .list l
      | some _ => .pynone
      | none => .pynone
  | .dict d =>
    match d.lookup "todos" with
    | some (.str ts) => (json_loads ts).getD (.str ts)
    | some v => v
    | none => .pynone
  | .list l => .list l
  | _ => .pynone

/-- One content block rendered for the `" ".join(...)` over a
block-structured content list (lines 603-606): a dict uses its `text`
entry when that entry is a string (a non-string `text` value makes the
join raise, modelled as `none`), falling back to `str(block)`; any
non-dict block is rendered with `str`. -/
def blockToStr : PyVal → Option String
  | .dict d =>
    match d.lookup "text" with
    | some (.str s) => some s
    | some _ => none
    | none => some (pyStr (.dict d))
  | v => some (pyStr v)

/-- Normalizes assistant message content to a single string (lines
599-608); `none` models the join raising on a non-string `text` value. -/
def contentToStr : PyVal → Option String
  | .str s => some s
  | .list blocks => (blocks.mapM blockToStr).map (String.intercalate " ")
  | v => some (pyStr v)

/-- Diagnostic for the modelled `TypeError` raised by `" ".join` on a
non-string item. -/
def joinTypeError : String := "sequence item: expected str instance"

/-- Events produced for the last message of one node's update (lines
509-655), together with an exception raised while producing them.
`think_tool` tool messages yield a `chunk` with the truthy reflection;
`write_todos` tool messages yield a `todo_list` for a non-empty parsed
list; other tool messages are suppressed; assistant messages yield a
`tool_calls` event for the calls surviving the `think_tool`/`write_todos`
filter and a `chunk` with the cleaned content, where embedded tool-call
dictionary text is stripped whenever the raw `tool_calls` attribute was
non-empty. -/
def processMessage (node : String) (m : Message) : List StreamEvent × Option String :=
  match m with
  | .tool toolName content =>
    if toolName = some "think_tool" then
      let r := thinkReflection content
      (if r.truthy then [.chunk r none] else [], none)
    else if toolName = some "write_todos" then
      (match todosOf content with
       | .list l => if l.isEmpty then [] else [.todo_list l]
       | _ => [], none)
    else ([], none)
  | .assistant content tcs =>
    match contentToStr content with
    | none => ([], some joinTypeError)
    | some cstr =>
      let filtered := (tcs.filter (fun tc => !isSpecialTool (tcNameOf tc))).map normToolCall
      let s1 := if cstr = "" then "" else pyStrip cstr
      let s2 := if s1 = "" then s1 else if tcs.isEmpty then s1 else pyStrip (stripToolDicts s1)
      ((if !tcs.isEmpty && !filtered.isEmpty then [.tool_calls filtered node] else []) ++
       (if s2 = "" then [] else [.chunk (.str s2) (some node)]), none)
  | .noContent => ([], none)

/-- Events for one node entry of an update (lines 500-509): mappings
without a `messages` list and empty message lists yield nothing;
otherwise the last message is processed. -/
def processNode (node : String) (sd : StateData) : List StreamEvent × Option String :=
  match sd with
  | .noMsgs => ([], none)
  | .withMsgs msgs =>
    match msgs.getLast? with
    | none => ([], none)
    | some m => processMessage node m

/-- Iterates `processNode` over the node entries of one update, stopping
at the first raised exception while keeping the events already yielded. -/
def processNodes : List (String × StateData) → List StreamEvent × Option String
  | [] => ([], none)
  | (n, sd) :: rest =>
    let r := processNode n sd
    match r.2 with
    | some e => (r.1, some e)
    | none =>
      let r2 := processNodes rest
      (r.1 ++ r2.1, r2.2)

/-- Events for one streamed update (lines 430-655): an
`__interrupt__`-keyed mapping yields one `interrupt` event; a regular
mapping is processed node by node; a non-mapping yields nothing. -/
def processUpdate : Update → List StreamEvent × Option String
  | .interruptU r => ([.interrupt (normInterrupt r)], none)
  | .nodesU es => processNodes es
  | .nonDict => ([], none)

/-- Iterates `processUpdate` over the delivered updates, stopping at the
first exception raised inside the loop body. -/
def runUpdates : List Update → List StreamEvent × Option String
  | [] => ([], none)
  | u :: rest =>
    let r := processUpdate u
    match r.2 with
    | some e => (r.1, some e)
    | none =>
      let r2 := runUpdates rest
      (r.1 ++ r2.1, r2.2)

/-- The event sequence of `AgentWrapper.stream`'s `try` body (lines
415-665) given the updates delivered by the underlying agent stream and
an optional exception the underlying stream raises after delivering
them: all per-update events, then exactly one `complete` on normal
exhaustion or one `error` on any exception. -/
def streamEvents (us : List Update) (exc : Option String) : List StreamEvent :=
  let r := runUpdates us
  match r.2 with
  | some e => r.1 ++ [.error ("Error streaming from agent: " ++ e)]
  | none =>
    match exc with
    | some e => r.1 ++ [.error ("Error streaming from agent: " ++ e)]
    | none => r.1 ++ [.complete]

/-- The unloaded-handle diagnostic of `stream` (lines 404-408), which
depends on whether `JUPYTER_AGENT_PATH` is set. -/
def streamNotLoadedMsg (envPath : Option String) : String :=
  match envPath with
  | some p => "Agent not loaded. Check JUPYTER_AGENT_PATH: " ++ p
  | none =>
    "Agent not loaded. Please create my_agent.py with your LangGraph agent or set JUPYTER_AGENT_PATH."

/-- `AgentWrapper.stream` (lines 390-665): with no loaded handle, exactly
one `error` event; otherwise the normalized sequence for the underlying
update stream (the agent's reply to the built input envelope, abstracted
here as the delivered update list). -/
def streamRun (loaded : Bool) (envPath : Option String) (us : List Update)
    (exc : Option String) : List StreamEvent :=
  if loaded then streamEvents us exc
  else [.error (streamNotLoadedMsg envPath)]

/-! ## Interrupt/Resume Handler (`resume_from_interrupt`, lines 143-388)

The body of `resume_from_interrupt` duplicates the normalization code of
`stream` verbatim (the only textual differences — a missing `enumerate`
over review configs and comment text — do not change behaviour).  The
duplicated blocks are embedded a second time below, sharing only the
models of library calls and the raw data types, so that the equivalence
of the two paths is a provable property rather than a definitional one. -/

/-- Resume-path copy of `normAction` (lines 209-227). -/
def normActionR (i : Nat) (a : RawAction) : ActionRequestN :=
  { tool := pyOr (a.tool.getD .pynone) (a.name.getD .pynone)
    tool_call_id := a.tool_call_id.getD (.str ("call_" ++ toString i))
    args := a.args.getD (.dict [])
    description := a.description.getD .pynone }

/-- Resume-path copy of `normReview` (lines 230-233). -/
def normReviewR (r : RawReview) : ReviewConfigN :=
  match r with
  | .rdict o => ⟨o.getD .pynone⟩
  | .robj o => ⟨o.getD (.list [])⟩

/-- Resume-path copy of `interruptFields` (lines 181-200). -/
def interruptFieldsR : RawInterrupt → IntFields
  | .tuple1Value f => f
  | .tuple1Attrs f => f
  | .tuple2 f => f
  | .tupleOther => ⟨[], []⟩
  | .objAttrs f => f
  | .mapKeys _ => ⟨[], []⟩

/-- Resume-path copy of `normInterrupt` (lines 181-233). -/
def normInterruptR (r : RawInterrupt) : InterruptData :=
  let f := interruptFieldsR r
  ⟨(f.action_requests.enum).map (fun p => normActionR p.1 p.2),
   f.review_configs.map normReviewR⟩

/-- Resume-path copy of `thinkReflection` (lines 252-266). -/
def thinkReflectionR (content : PyVal) : PyVal :=
  match content with
  | .str s =>
    match json_loads s with
    | some (.dict d) => (d.lookup "reflection").getD .pynone
    | some _ => .str s
    | none => .str s
  | .dict d => (d.lookup "reflection").getD .pynone
  | _ => .pynone

/-- Resume-path copy of `todosOf` (lines 274-322). -/
def todosOfR (content : PyVal) : PyVal :=
  match content with
  | .str s =>
    match bracketSearch s.data with
    | some arr =>
      let arrS := String.mk arr
      match ast_literal_eval arrS with
      | some v => v
      | none =>
        match json_loads arrS with
        | some v => v
        | none => .pynone
    | none =>
      match json_loads s with
      | some (.dict d) =>
        match d.lookup "todos" with
        | some (.str ts) =>
          match json_loads ts with
          | some v => v
          | none => .str ts
        | some v => v
        | none => .pynone
      | some (.list l) => .list l
      | some _ => .pynone
      | none => .pynone
  | .dict d =>
    match d.lookup "todos" with
    | some (.str ts) => (json_loads ts).getD (.str ts)
    | some v => v
    | none => .pynone
  | .list l => .list l
  | _ => .pynone

/-- Resume-path copy of `blockToStr` (lines 335-338). -/
def blockToStrR : PyVal → Option String
  | .dict d =>
    match d.lookup "text" with
    | some (.str s) => some s
    | some _ => none
    | none => some (pyStr (.dict d))
  | v => some (pyStr v)

/-- Resume-path copy of `contentToStr` (lines 331-340). -/
def contentToStrR : PyVal → Option String
  | .str s => some s
  | .list blocks => (blocks.mapM blockToStrR).map (String.intercalate " ")
  | v => some (pyStr v)

/-- Resume-path copy of `tcNameOf` (line 347). -/
def tcNameOfR : RawToolCall → PyVal
  | .callDict _ n _ => n.getD .pynone
  | .callObj _ n _ => n.getD .pynone

/-- Resume-path copy of `normToolCall` (lines 351-355). -/
def normToolCallR : RawToolCall → ToolCallN
  | .callDict i n a => ⟨i.getD .pynone, n.getD .pynone, a.getD .pynone⟩
  | .callObj i n a => ⟨i.getD .pynone, n.getD .pynone, a.getD (.dict [])⟩

/-- Resume-path copy of `processMessage` (lines 248-378). -/
def processMessageR (node : String) (m : Message) : List StreamEvent × Option String :=
  match m with
  | .tool toolName content =>
    if toolName = some "think_tool" then
      let r := thinkReflectionR content
      (if r.truthy then [.chunk r none] else [], none)
    else if toolName = some "write_todos" then
      (match todosOfR content with
       | .list l => if l.isEmpty then [] else [.todo_list l]
       | _ => [], none)
    else ([], none)
  | .assistant content tcs =>
    match contentToStrR content with
    | none => ([], some joinTypeError)
    | some cstr =>
      let filtered := (tcs.filter (fun tc => !isSpecialTool (tcNameOfR tc))).map normToolCallR
      let s1 := if cstr = "" then "" else pyStrip cstr
      let s2 := if s1 = "" then s1 else if tcs.isEmpty then s1 else pyStrip (stripToolDicts s1)
      ((if !tcs.isEmpty && !filtered.isEmpty then [.tool_calls filtered node] else []) ++
       (if s2 = "" then [] else [.chunk (.str s2) (some node)]), none)
  | .noContent => ([], none)

/-- Resume-path copy of `processNode` (lines 243-248). -/
def processNodeR (node : String) (sd : StateData) : List StreamEvent × Option String :=
  match sd with
  | .noMsgs => ([], none)
  | .withMsgs msgs =>
    match msgs.getLast? with
    | none => ([], none)
    | some m => processMessageR node m

/-- Resume-path copy of `processNodes` (line 243). -/
def processNodesR : List (String × StateData) → List StreamEvent × Option String
  | [] => ([], none)
  | (n, sd) :: rest =>
    let r := processNodeR n sd
    match r.2 with
    | some e => (r.1, some e)
    | none =>
      let r2 := processNodesR rest
      (r.1 ++ r2.1, r2.2)

/-- Resume-path copy of `processUpdate` (lines 176-378). -/
def processUpdateR : Update → List StreamEvent × Option String
  | .interruptU r => ([.interrupt (normInterruptR r)], none)
  | .nodesU es => processNodesR es
  | .nonDict => ([], none)

/-- Resume-path copy of `runUpdates` (line 175). -/
def runUpdatesR : List Update → List StreamEvent × Option String
  | [] => ([], none)
  | u :: rest =>
    let r := processUpdateR u
    match r.2 with
    | some e => (r.1, some e)
    | none =>
      let r2 := runUpdatesR rest
      (r.1 ++ r2.1, r2.2)

/-- The event sequence of `resume_from_interrupt`'s `try` body (lines
162-388): identical to `streamEvents` except for the error-diagnostic
prefix. -/
def resumeEvents (us : List Update) (exc : Option String) : List StreamEvent :=
  let r := runUpdatesR us
  match r.2 with
  | some e => r.1 ++ [.error ("Error resuming from interrupt: " ++ e)]
  | none =>
    match exc with
    | some e => r.1 ++ [.error ("Error resuming from interrupt: " ++ e)]
    | none => r.1 ++ [.complete]

/-- `AgentWrapper.resume_from_interrupt` (lines 143-388): with no loaded
handle, exactly one `error` event (lines 155-160); otherwise the
normalized sequence for the update stream produced by resuming (the
`Command(resume=...)` round trip through the agent is abstracted as the
delivered update list). -/
def resumeRun (loaded : Bool) (us : List Update) (exc : Option String) : List StreamEvent :=
  if loaded then resumeEvents us exc
  else [.error "Agent not loaded"]

/-! ## Request Normalizer (`_append_context_to_message`, lines 114-141) -/

/-- The context mapping passed to `stream`; `none` fields model absent
keys (`context.get(...)`). -/
structure AgentContext where
  current_directory : Option String
  focused_widget : Option String

/-- The file-path test of line 134: the focused resource contains a slash
or ends with one of the recognized extensions. -/
def isFilePath (f : String) : Bool :=
  f.data.contains '/' ||
  ([".ipynb", ".py", ".txt", ".md"].any (fun e => e.data.isSuffixOf f.data))

/-- `AgentWrapper._append_context_to_message` (lines 114-141): appends a
current-directory line and then a focused-resource line for each truthy
context field, separated from the message by a blank line. -/
def appendContextToMessage (message : String) (context : Option AgentContext) : String :=
  match context with
  | none => message
  | some ctx =>
    let parts1 :=
      match ctx.current_directory with
      | some d => if d = "" then [] else ["Current directory: " ++ d]
      | none => []
    let parts2 :=
      match ctx.focused_widget with
      | some f =>
        if f = "" then []
        else if isFilePath f then ["Currently focused file: " ++ f]
        else ["Currently focused: " ++ f]
      | none => []
    let parts := parts1 ++ parts2
    if parts.isEmpty then message
    else message ++ "\n\n" ++ String.intercalate "\n" parts

/-! ## Derived notions used by the stated properties -/

/-- Terminal events of the caller-facing contract: `complete` and
`error`. -/
def isTerminal : StreamEvent → Bool
  | .complete => true
  | .error _ => true
  | _ => false

/-- Forgets the diagnostic text carried by an `error` event, keeping every
other event intact. -/
def eraseErrText : StreamEvent → StreamEvent
  | .error _ => .error ""
  | e => e

/-- A run is a normal exhaustion when the underlying stream raises no
exception and the normalization loop raises none either. -/
def normalRun (us : List Update) (exc : Option String) : Bool :=
  exc.isNone && (runUpdates us).2.isNone

/-- Interrupt payload data with one action request and one review config,
used to separate the raw interrupt shapes. -/
def sampleIntFields : IntFields :=
  ⟨[⟨some (.str "write_file"), none, some (.str "id1"), some (.dict []), none⟩],
   [RawReview.rdict (some (.list [.str "approve"]))]⟩

/-- The `write_todos` content string of the spec's example:
`Updated todo list to [{'content': 'a', 'status': 'pending'}]`. -/
def todosSample : String :=
  "Updated todo list to [\x7b\x27content\x27: \x27a\x27, \x27status\x27: \x27pending\x27\x7d]"

/-- The assistant content string of the spec's example:
`Calling tool {'id': 'x', 'input': {}, 'name': 'foo', 'type': 'tool_use'} done`. -/
def carryToolSample : String :=
  "Calling tool \x7b\x27id\x27: \x27x\x27, \x27input\x27: \x7b\x7d, \x27name\x27: \x27foo\x27, \x27type\x27: \x27tool_use\x27\x7d done"

/-! ## The duplicated resume-path code agrees with the stream path -/

theorem normActionR_eq : normActionR = normAction := rfl

theorem normReviewR_eq : normReviewR = normReview := by
  funext r; cases r <;> rfl

theorem interruptFieldsR_eq : interruptFieldsR = interruptFields := by
  funext r; cases r <;> rfl

theorem normInterruptR_eq : normInterruptR = normInterrupt := by
  funext r
  simp [normInterruptR, normInterrupt, normActionR_eq, normReviewR_eq, interruptFieldsR_eq]

theorem thinkReflectionR_eq : thinkReflectionR = thinkReflection := by
  funext c; cases c <;> rfl

theorem todosOfR_eq : todosOfR = todosOf := by
  funext c; cases c <;> rfl

theorem blockToStrR_eq : blockToStrR = blockToStr := by
  funext v; cases v <;> rfl

theorem contentToStrR_eq : contentToStrR = contentToStr := by
  funext v; cases v <;> simp [contentToStrR, contentToStr, blockToStrR_eq]

theorem tcNameOfR_eq : tcNameOfR = tcNameOf := by
  funext tc; cases tc <;> rfl

theorem normToolCallR_eq : normToolCallR = normToolCall := by
  funext tc; cases tc <;> rfl

theorem processMessageR_eq : processMessageR = processMessage := by
  funext node m
  cases m with
  | tool tn c =>
    simp [processMessageR, processMessage, thinkReflectionR_eq, todosOfR_eq]
  | assistant c tcs =>
    simp only [processMessageR, processMessage]
    rw [contentToStrR_eq, tcNameOfR_eq, normToolCallR_eq]
  | noContent => rfl

theorem processNodeR_eq : processNodeR = processNode := by
  funext node sd
  cases sd <;> simp [processNodeR, processNode, processMessageR_eq]

theorem processNodesR_eq : processNodesR = processNodes := by
  funext es
  induction es with
  | nil => rfl
  | cons e rest ih =>
    cases e
    simp [processNodesR, processNodes, processNodeR_eq, ih]

theorem processUpdateR_eq : processUpdateR = processUpdate := by
  funext u
  cases u <;> simp [processUpdateR, processUpdate, normInterruptR_eq, processNodesR_eq]

theorem runUpdatesR_eq : runUpdatesR = runUpdates := by
  funext us
  induction us with
  | nil => rfl
  | cons u rest ih => simp [runUpdatesR, runUpdates, processUpdateR_eq, ih]

/-! ## Events produced inside the update loop are never terminal -/

theorem processMessage_no_terminal (node : String) (m : Message) :
    ∀ e ∈ (processMessage node m).1, isTerminal e = false := by
  intro e he
  cases m with
  | tool tn c =>
    simp only [processMessage] at he
    split at he
    · split at he <;> simp_all [isTerminal]
    · split at he
      · split at he
        · split at he <;> simp_all [isTerminal]
        · simp_all
      · simp_all
  | assistant c tcs =>
    simp only [processMessage] at he
    rcases h : contentToStr c with _ | cstr <;> rw [h] at he <;> simp only at he
    · simp at he
    · rcases List.mem_append.1 he with h1 | h1 <;> split at h1 <;> simp_all [isTerminal]
  | noContent => simp [processMessage] at he

theorem processNode_no_terminal (node : String) (sd : StateData) :
    ∀ e ∈ (processNode node sd).1, isTerminal e = false := by
  intro e he
  cases sd with
  | noMsgs => simp [processNode] at he
  | withMsgs msgs =>
    simp only [processNode] at he
    rcases h : msgs.getLast? with _ | m <;> rw [h] at he
    · simp at he
    · exact processMessage_no_terminal node m e he

theorem processNodes_no_terminal (es : List (String × StateData)) :
    ∀ e ∈ (processNodes es).1, isTerminal e = false := by
  intro e he
  induction es with
  | nil => simp [processNodes] at he
  | cons p rest ih =>
    obtain ⟨n, sd⟩ := p
    simp only [processNodes] at he
    split at he
    · exact processNode_no_terminal n sd e he
    · rcases List.mem_append.1 he with h1 | h1
      · exact processNode_no_terminal n sd e h1
      · exact ih h1

theorem processUpdate_no_terminal (u : Update) :
    ∀ e ∈ (processUpdate u).1, isTerminal e = false := by
  intro e he
  cases u with
  | interruptU r => simp [processUpdate] at he; subst he; rfl
  | nodesU es => exact processNodes_no_terminal es e he
  | nonDict => simp [processUpdate] at he

theorem runUpdates_no_terminal (us : List Update) :
    ∀ e ∈ (runUpdates us).1, isTerminal e = false := by
  intro e he
  induction us with
  | nil => simp [runUpdates] at he
  | cons u rest ih =>
    simp only [runUpdates] at he
    split at he
    · exact processUpdate_no_terminal u e he
    · rcases List.mem_append.1 he with h1 | h1
      · exact processUpdate_no_terminal u e h1
      · exact ih h1

/-! ## Shape of the emitted sequences -/

theorem streamEvents_of_normal (us : List Update) (exc : Option String)
    (h : normalRun us exc = true) :
    streamEvents us exc = (runUpdates us).1 ++ [.complete] := by
  simp only [normalRun, Bool.and_eq_true, Option.isNone_iff_eq_none] at h
  simp [streamEvents, h.1, h.2]

theorem streamEvents_of_abnormal (us : List Update) (exc : Option String)
    (h : normalRun us exc = false) :
    ∃ msg, streamEvents us exc = (runUpdates us).1 ++ [.error msg] := by
  simp only [normalRun, Bool.and_eq_false_iff, Option.isNone_eq_false_iff,
    Option.isSome_iff_exists] at h
  simp only [streamEvents]
  rcases h2 : (runUpdates us).2 with _ | e
  · rcases hx : exc with _ | e2
    · rcases h with ⟨e3, h⟩ | ⟨e3, h⟩ <;> simp_all
    · exact ⟨_, rfl⟩
  · exact ⟨_, rfl⟩

theorem resumeEvents_of_normal (us : List Update) (exc : Option String)
    (h : normalRun us exc = true) :
    resumeEvents us exc = (runUpdates us).1 ++ [.complete] := by
  simp only [normalRun, Bool.and_eq_true, Option.isNone_iff_eq_none] at h
  simp [resumeEvents, runUpdatesR_eq, h.1, h.2]

theorem resumeEvents_of_abnormal (us : List Update) (exc : Option String)
    (h : normalRun us exc = false) :
    ∃ msg, resumeEvents us exc = (runUpdates us).1 ++ [.error msg] := by
  simp only [normalRun, Bool.and_eq_false_iff, Option.isNone_eq_false_iff,
    Option.isSome_iff_exists] at h
  simp only [resumeEvents, runUpdatesR_eq]
  rcases h2 : (runUpdates us).2 with _ | e
  · rcases hx : exc with _ | e2
    · rcases h with ⟨e3, h⟩ | ⟨e3, h⟩ <;> simp_all
    · exact ⟨_, rfl⟩
  · exact ⟨_, rfl⟩

theorem terminal_aux (evs : List StreamEvent) (t : StreamEvent)
    (hevs : ∀ e ∈ evs, isTerminal e = false) :
    (∀ e ∈ (evs ++ [t]).dropLast, isTerminal e = false) ∧
    (evs ++ [t]).getLast? = some t := by
  constructor
  · intro e he
    rw [List.dropLast_concat] at he
    exact hevs e he
  · exact List.getLast?_concat evs

/-! ## Claims -/

/-- C1: every run of `stream` or `resume_from_interrupt` with a loaded
agent handle ends with exactly one terminal event and no event follows
it — a single `complete` event when the whole run exhausts the update
sequence without any exception, and a single `error` event (with no
`complete` anywhere) when the underlying stream or the loop body raises
at any point. -/
theorem stream_terminal_event (envPath : Option String) (us : List Update)
    (exc : Option String) (out : List StreamEvent)
    (hout : out = streamRun true envPath us exc ∨ out = resumeRun true us exc) :
    (∀ e ∈ out.dropLast, isTerminal e = false) ∧
    (∃ t, out.getLast? = some t ∧ isTerminal t = true) ∧
    (normalRun us exc = true →
      out.getLast? = some StreamEvent.complete ∧
      ∀ msg, StreamEvent.error msg ∉ out) ∧
    (normalRun us exc = false →
      (∃ msg, out.getLast? = some (StreamEvent.error msg)) ∧
      StreamEvent.complete ∉ out) := by
  have hbody := runUpdates_no_terminal us
  by_cases hn : normalRun us exc = true
  · have heq : out = (runUpdates us).1 ++ [.complete] := by
      rcases hout with h | h <;> subst h
      · simpa [streamRun] using streamEvents_of_normal us exc hn
      · simpa [resumeRun] using resumeEvents_of_normal us exc hn
    obtain ⟨hdrop, hlast⟩ := terminal_aux _ _ hbody
    rw [heq]
    refine ⟨hdrop, ⟨_, hlast, rfl⟩, fun _ => ⟨hlast, ?_⟩, fun hfalse => absurd hn (by simp [hfalse])⟩
    intro msg hmem
    rcases List.mem_append.1 hmem with h1 | h1
    · have := hbody _ h1
      simp [isTerminal] at this
    · simp at h1
  · have hn' : normalRun us exc = false := by simpa using hn
    have heq : ∃ msg, out = (runUpdates us).1 ++ [.error msg] := by
      rcases hout with h | h <;> subst h
      · simpa [streamRun] using streamEvents_of_abnormal us exc hn'
      · simpa [resumeRun] using resumeEvents_of_abnormal us exc hn'
    obtain ⟨msg, heq⟩ := heq
    obtain ⟨hdrop, hlast⟩ := terminal_aux _ (StreamEvent.error msg) hbody
    rw [heq]
    refine ⟨hdrop, ⟨_, hlast, rfl⟩, fun htrue => absurd htrue (by simp [hn']), fun _ => ⟨⟨msg, hlast⟩, ?_⟩⟩
    intro hmem
    rcases List.mem_append.1 hmem with h1 | h1
    · have := hbody _ h1
      simp [isTerminal] at this
    · simp at h1

/-- Witness for C1 at the empty update sequence with no exception: the
stream run is the single `complete` event. -/
theorem stream_terminal_event_witness :
    (streamRun true none [] none).getLast? = some StreamEvent.complete ∧
    ∀ msg, StreamEvent.error msg ∉ streamRun true none [] none :=
  (stream_terminal_event none [] none (streamRun true none [] none) (Or.inl rfl)).2.2.1 rfl

/-- C2 counterexample: a non-tuple mapping that exposes `action_requests`
and `review_configs` only as keys is read with `getattr(..., [])`, so it
normalizes to empty lists and does not produce the same `InterruptData`
as a 2-tuple carrying the same data. -/
theorem interrupt_shape_counterexample :
    ¬ normInterrupt (RawInterrupt.mapKeys sampleIntFields) =
        normInterrupt (RawInterrupt.tuple2 sampleIntFields) := by
  intro h
  have hlen := congrArg (fun d => d.action_requests.length) h
  simp [normInterrupt, interruptFields, sampleIntFields] at hlen

/-- C2 amended: interrupt normalization is shape-invariant across the
attribute-reachable raw shapes — a single-element tuple wrapping an
interrupt object (whether the data sits in its `value` mapping or in its
attributes), a two-element tuple, and a non-tuple object exposing the
fields as attributes all produce the identical normalized
`InterruptData`; a non-tuple mapping exposing the fields only by key
instead degrades to empty `action_requests` and `review_configs`. -/
theorem interrupt_shape_invariance_amended (f : IntFields) :
    normInterrupt (RawInterrupt.tuple1Value f) = normInterrupt (RawInterrupt.tuple2 f) ∧
    normInterrupt (RawInterrupt.tuple1Attrs f) = normInterrupt (RawInterrupt.tuple2 f) ∧
    normInterrupt (RawInterrupt.objAttrs f) = normInterrupt (RawInterrupt.tuple2 f) ∧
    normInterrupt (RawInterrupt.mapKeys f) = ⟨[], []⟩ :=
  ⟨rfl, rfl, rfl, rfl⟩

/-- C3: with a loaded handle, `resume_from_interrupt` re-enters the same
normalization algorithm as `stream`: on the same underlying update
sequence both emit identical event sequences up to the diagnostic text
of a terminal `error` event. -/
theorem resume_reenters_stream_normalizer (envPath : Option String) (us : List Update)
    (exc : Option String) :
    (resumeRun true us exc).map eraseErrText =
      (streamRun true envPath us exc).map eraseErrText := by
  simp only [resumeRun, streamRun, if_true, resumeEvents, streamEvents, runUpdatesR_eq]
  rcases h2 : (runUpdates us).2 with _ | e
  · rcases exc with _ | e2
    · rfl
    · simp [eraseErrText]
  · simp [eraseErrText]

/-- C4: calling `resume_from_interrupt` when no agent handle is loaded
emits exactly one `error` event and nothing else. -/
theorem resume_unloaded_single_error (us : List Update) (exc : Option String) :
    resumeRun false us exc = [.error "Agent not loaded"] ∧
    (resumeRun false us exc).length = 1 :=
  ⟨rfl, rfl⟩

/-- C5: a `think_tool` tool message with string content
`{"reflection": "done"}` yields exactly one `chunk` event with content
`done`; the non-JSON string content `plain text` yields exactly one
`chunk` event with content `plain text`; and when the extracted
reflection is empty or missing, no event is emitted for that update. -/
theorem think_tool_normalization (node : String) (c : PyVal)
    (h : thinkReflection c = .str "" ∨ thinkReflection c = .pynone) :
    processMessage node (.tool (some "think_tool")
        (.str "\x7b\"reflection\": \"done\"\x7d")) =
      ([.chunk (.str "done") none], none) ∧
    processMessage node (.tool (some "think_tool") (.str "plain text")) =
      ([.chunk (.str "plain text") none], none) ∧
    processMessage node (.tool (some "think_tool") c) = ([], none) := by
  refine ⟨rfl, rfl, ?_⟩
  rcases h with h | h <;> simp [processMessage, h, PyVal.truthy]

/-- Witness for C5 at content `{}`: the parsed object has no `reflection`
field, so no event is emitted. -/
theorem think_tool_normalization_witness :
    processMessage "agent" (.tool (some "think_tool") (.str "\x7b\x7d")) = ([], none) :=
  (think_tool_normalization "agent" (.str "\x7b\x7d") (Or.inr rfl)).2.2

/-- C6: a `write_todos` tool message with string content
`Updated todo list to [{'content': 'a', 'status': 'pending'}]` yields
exactly one `todo_list` event carrying that list; and when every parse
attempt fails or yields an empty result, no event is emitted. -/
theorem write_todos_normalization (node : String) (c : PyVal)
    (h : todosOf c = .pynone ∨ todosOf c = .list []) :
    processMessage node (.tool (some "write_todos") (.str todosSample)) =
      ([.todo_list [.dict [("content", .str "a"), ("status", .str "pending")]]], none) ∧
    processMessage node (.tool (some "write_todos") c) = ([], none) := by
  refine ⟨rfl, ?_⟩
  rcases h with h | h <;> simp [processMessage, h]

/-- Witness for C6 at content `no todos here`: no bracketed array and no
valid JSON, so every parse attempt fails and no event is emitted. -/
theorem write_todos_normalization_witness :
    processMessage "agent" (.tool (some "write_todos") (.str "no todos here")) = ([], none) :=
  (write_todos_normalization "agent" (.str "no todos here") (Or.inl rfl)).2

/-- C7: an assistant message with content
`Calling tool {'id': 'x', 'input': {}, 'name': 'foo', 'type': 'tool_use'} done`
and an attached tool call named `foo` yields exactly two events in
order: a `tool_calls` event with the normalized call for `foo` carrying
the originating node name, then a `chunk` event whose content drops the
embedded tool-call dictionary text and trims whitespace, leaving
`Calling tool  done`. -/
theorem assistant_tool_call_events (node : String) :
    processMessage node (.assistant (.str carryToolSample)
        [RawToolCall.callDict (some (.str "x")) (some (.str "foo")) (some (.dict []))]) =
      ([.tool_calls [⟨.str "x", .str "foo", .dict []⟩] node,
        .chunk (.str "Calling tool  done") (some node)], none) := rfl

/-- C9: for an assistant message whose raw attached tool-call list is
non-empty but consists only of `think_tool`/`write_todos` calls, the
tool-call-dictionary stripping is still applied to the content: no
`tool_calls` event is emitted, and the only possible event is a `chunk`
whose content is the stripped, trimmed string. -/
theorem tool_dict_stripping_when_all_filtered (node s : String) (tcs : List RawToolCall)
    (h1 : tcs ≠ [])
    (h2 : ∀ tc ∈ tcs, isSpecialTool (tcNameOf tc) = true) :
    processMessage node (.assistant (.str s) tcs) =
      (let s1 := if s = "" then "" else pyStrip s
       let s2 := if s1 = "" then s1 else pyStrip (stripToolDicts s1)
       (if s2 = "" then [] else [.chunk (.str s2) (some node)], none)) := by
  have hfilter : tcs.filter (fun tc => !isSpecialTool (tcNameOf tc)) = [] := by
    rw [List.filter_eq_nil_iff]
    intro tc htc
    simp [h2 tc htc]
  simp [processMessage, contentToStr, hfilter, h1]

/-- Witness for C9: a `think_tool`-only tool-call list with the sample
content still gets the dictionary text stripped, and no `tool_calls`
event appears. -/
theorem tool_dict_stripping_when_all_filtered_witness :
    processMessage "agent" (.assistant (.str carryToolSample)
        [RawToolCall.callDict (some (.str "x")) (some (.str "think_tool")) none]) =
      ([.chunk (.str "Calling tool  done") (some "agent")], none) := by
  have h := tool_dict_stripping_when_all_filtered "agent" carryToolSample
    [RawToolCall.callDict (some (.str "x")) (some (.str "think_tool")) none]
    (by simp) (by intro tc htc; simp at htc; subst htc; rfl)
  rw [h]
  rfl

/-- C10: a `think_tool` string content that parses as JSON to a non-object
value still falls back to the raw string: the `.get` lookup failure is
swallowed and the raw content is emitted as the chunk content. -/
theorem think_tool_nonobject_json_fallback (node s : String) (v : PyVal)
    (hp : json_loads s = some v) (hd : ∀ d, v ≠ PyVal.dict d) :
    processMessage node (.tool (some "think_tool") (.str s)) =
      ([.chunk (.str s) none], none) := by
  have hs : s ≠ "" := by
    intro h
    subst h
    rw [show json_loads "" = none from rfl] at hp
    cases hp
  have hrefl : thinkReflection (.str s) = .str s := by
    simp only [thinkReflection]
    rw [hp]
    cases v with
    | dict d => exact absurd rfl (hd d)
    | str a => rfl
    | int a => rfl
    | bool a => rfl
    | pynone => rfl
    | list a => rfl
  simp [processMessage, hrefl, PyVal.truthy, hs]

/-- Witness for C10 at content `[1, 2]`: valid JSON parsing to an array,
emitted back as the raw string in a `chunk` event. -/
theorem think_tool_nonobject_json_fallback_witness :
    processMessage "agent" (.tool (some "think_tool") (.str "[1, 2]")) =
      ([.chunk (.str "[1, 2]") none], none) :=
  think_tool_nonobject_json_fallback "agent" "[1, 2]" (.list [.int 1, .int 2]) rfl
    (fun d h => by cases h)

/-- C8: for context `{current_directory: "/a", focused_widget: "nb.ipynb"}`
exactly two lines are appended in fixed order — the current-directory
line first, then the focused-file line — and a focused resource is
classified as a file exactly when it contains a path separator or ends
with a recognized extension, otherwise it gets the generic focus label. -/
theorem append_context_two_lines (m f : String) (hf : f ≠ "") :
    appendContextToMessage m (some ⟨some "/a", some "nb.ipynb"⟩) =
      m ++ "\n\n" ++ "Current directory: /a\nCurrently focused file: nb.ipynb" ∧
    (isFilePath f = true →
      appendContextToMessage m (some ⟨none, some f⟩) =
        m ++ "\n\n" ++ ("Currently focused file: " ++ f)) ∧
    (isFilePath f = false →
      appendContextToMessage m (some ⟨none, some f⟩) =
        m ++ "\n\n" ++ ("Currently focused: " ++ f)) ∧
    isFilePath f = (f.data.contains '/' ||
      ([".ipynb", ".py", ".txt", ".md"].any (fun e => e.data.isSuffixOf f.data))) := by
  refine ⟨rfl, ?_, ?_, rfl⟩ <;> intro h <;> simp [appendContextToMessage, hf, h] <;> rfl

/-- Witness for C8 at message `msg` with the spec's context and with the
non-file widget `w1`. -/
theorem append_context_two_lines_witness :
    appendContextToMessage "msg" (some ⟨some "/a", some "nb.ipynb"⟩) =
      "msg" ++ "\n\n" ++ "Current directory: /a\nCurrently focused file: nb.ipynb" ∧
    appendContextToMessage "msg" (some ⟨none, some "w1"⟩) =
      "msg" ++ "\n\n" ++ ("Currently focused: " ++ "w1") :=
  ⟨(append_context_two_lines "msg" "w1" (by decide)).1,
   (append_context_two_lines "msg" "w1" (by decide)).2.2.1 rfl⟩

end AgentWrapper
